import Mathlib

/-
  Shallow embedding of pymuscle's PotvinMuscleFibers class
  (src/pymuscle/potvin_muscle_fibers.py).

  numpy float arrays are modelled as List ℝ and numpy transcendental
  functions as the corresponding real functions.  Because Python ndarray
  attributes are references and the constructor aliases
  _current_twitch_forces to _peak_twitch_forces (and
  _current_contraction_times to _contraction_times), the object state is
  modelled as a small heap: `arrays` is the list of allocated ndarrays and
  each attribute holds an index (a reference) into it.  In-place updates
  (the -= in _apply_fatigue) write through the reference, so aliased
  attributes observe them, exactly as in numpy.
-/

noncomputable section

namespace Pymuscle

/-- Constructor parameters of PotvinMuscleFibers (defaults in the source:
120, 100, 90, 3, 50, 0.0125, 180, 0.379). -/
structure Config where
  motor_unit_count : ℕ
  max_twitch_amplitude : ℝ
  max_contraction_time : ℝ
  contraction_time_range : ℝ
  max_recruitment_threshold : ℝ
  fatigue_factor_first_unit : ℝ
  fatigability_range : ℝ
  contraction_time_change_ratio : ℝ

/-- Object state.  The attribute fields hold references (indices) into
`arrays`; the constructor makes current_twitch_forces the same reference
as peak_twitch_forces, and similarly for the contraction times. -/
structure PotvinMuscleFibers where
  arrays : List (List ℝ)
  peak_twitch_forces_ref : ℕ
  current_twitch_forces_ref : ℕ
  contraction_times_ref : ℕ
  current_contraction_times_ref : ℕ
  nominal_fatigabilities_ref : ℕ
  contraction_time_change_ratio : ℝ
  motor_unit_count : ℕ

/-- Dereference an ndarray attribute. -/
def arr (st : PotvinMuscleFibers) (r : ℕ) : List ℝ :=
  st.arrays.getD r []

/-- _calc_peak_twitch_forces: exp(log(max_twitch_amplitude) * (k-1) / (n-1))
for k = 1..n, i.e. index j = 0..n-1. -/
def calc_peak_twitch_forces (motor_unit_count : ℕ) (max_twitch_amplitude : ℝ) :
    List ℝ :=
  (List.range motor_unit_count).map fun (j : ℕ) =>
    Real.exp (Real.log max_twitch_amplitude * (j : ℝ) /
      ((motor_unit_count : ℝ) - 1))

/-- _calc_contraction_times: max_contraction_time * (1/p)^(1/scale) with
scale = log(max_twitch_amplitude) / log(contraction_time_range). -/
def calc_contraction_times (max_twitch_amplitude max_contraction_time
    contraction_time_range : ℝ) (peak_twitch_forces : List ℝ) : List ℝ :=
  let scale := Real.log max_twitch_amplitude / Real.log contraction_time_range
  let exponent := 1 / scale
  peak_twitch_forces.map fun p => max_contraction_time * (1 / p) ^ exponent

/-- _calc_nominal_fatigabilities:
fatigue_factor_first_unit * exp(log(fatigability_range) * (k-1)/(n-1)). -/
def calc_nominal_fatigabilities (motor_unit_count : ℕ)
    (fatigability_range fatigue_factor_first_unit : ℝ) : List ℝ :=
  (List.range motor_unit_count).map fun (j : ℕ) =>
    fatigue_factor_first_unit *
      Real.exp (Real.log fatigability_range * (j : ℝ) /
        ((motor_unit_count : ℝ) - 1))

/-- __init__: allocates the three parameter arrays and aliases the two
current arrays to them (plain attribute assignment in Python copies the
reference, not the data). -/
def init (c : Config) : PotvinMuscleFibers :=
  let ptf := calc_peak_twitch_forces c.motor_unit_count c.max_twitch_amplitude
  let cts := calc_contraction_times c.max_twitch_amplitude
    c.max_contraction_time c.contraction_time_range ptf
  let nf := calc_nominal_fatigabilities c.motor_unit_count
    c.fatigability_range c.fatigue_factor_first_unit
  { arrays := [ptf, cts, nf]
    peak_twitch_forces_ref := 0
    current_twitch_forces_ref := 0
    contraction_times_ref := 1
    current_contraction_times_ref := 1
    nominal_fatigabilities_ref := 2
    contraction_time_change_ratio := c.contraction_time_change_ratio
    motor_unit_count := c.motor_unit_count }

/-- _apply_fatigue: current_twitch_forces -= step_size * inst_fatigues,
then negative entries are set to 0.  The -= is an in-place ndarray update,
so it writes through the current_twitch_forces reference. -/
def apply_fatigue (st : PotvinMuscleFibers) (inst_fatigues : List ℝ)
    (step_size : ℝ) : PotvinMuscleFibers :=
  let fatigues := inst_fatigues.map fun f => step_size * f
  let old := arr st st.current_twitch_forces_ref
  let updated := (List.zipWith (fun x f => x - f) old fatigues).map
    fun x => if x < 0 then 0 else x
  { st with arrays := st.arrays.set st.current_twitch_forces_ref updated }

/-- _normalize_firing_rates: (firing_rates / 1000) * contraction_times. -/
def normalize_firing_rates (st : PotvinMuscleFibers) (firing_rates : List ℝ) :
    List ℝ :=
  List.zipWith (· * ·) (firing_rates.map fun r => r / 1000)
    (arr st st.contraction_times_ref)

/-- _normalize_firing_rates_w_fatigue:
(firing_rates / 1000) * current_contraction_times. -/
def normalize_firing_rates_w_fatigue (st : PotvinMuscleFibers)
    (firing_rates : List ℝ) : List ℝ :=
  List.zipWith (· * ·) (firing_rates.map fun r => r / 1000)
    (arr st st.current_contraction_times_ref)

/-- _calc_normalized_forces, translated operation by operation: both index
masks are computed from the (copied) input array, the entries at or below
the threshold are scaled by 0.3 in place, and the entries above the
threshold are then replaced by 1 - exp(-2 * x^3) using their values after
the first in-place update (which left them untouched). -/
def calc_normalized_forces (normalized_firing_rates : List ℝ) : List ℝ :=
  let linear_threshold : ℝ := 0.4
  let below_thresh_indices :=
    normalized_firing_rates.map fun x => decide (x ≤ linear_threshold)
  let above_thresh_indices :=
    normalized_firing_rates.map fun x => decide (linear_threshold < x)
  let after_below := List.zipWith
    (fun m x => if m then 0.3 * x else x) below_thresh_indices
    normalized_firing_rates
  List.zipWith
    (fun m x => if m then 1 - Real.exp (-2 * x ^ 3) else x)
    above_thresh_indices after_below

/-- _calc_inst_forces: normalized_forces * peak_twitch_forces. -/
def calc_inst_forces (st : PotvinMuscleFibers) (normalized_forces : List ℝ) :
    List ℝ :=
  List.zipWith (· * ·) normalized_forces (arr st st.peak_twitch_forces_ref)

/-- _calc_current_forces: normalized_forces * current_twitch_forces. -/
def calc_current_forces (st : PotvinMuscleFibers)
    (normalized_forces : List ℝ) : List ℝ :=
  List.zipWith (· * ·) normalized_forces (arr st st.current_twitch_forces_ref)

/-- _calc_inst_fatigues: normalized_forces * nominal_fatigabilities. -/
def calc_inst_fatigues (st : PotvinMuscleFibers)
    (normalized_forces : List ℝ) : List ℝ :=
  List.zipWith (· * ·) normalized_forces
    (arr st st.nominal_fatigabilities_ref)

/-- _calc_ct_increase_percents (only reachable from commented-out code). -/
def calc_ct_increase_percents (st : PotvinMuscleFibers)
    (force_losses : List ℝ) : List ℝ :=
  force_losses.map fun f => st.contraction_time_change_ratio * f

/-- _calc_total_inst_force: np.sum. -/
def calc_total_inst_force (inst_forces : List ℝ) : ℝ :=
  inst_forces.sum

/-- _calc_total_fiber_force. -/
def calc_total_fiber_force (st : PotvinMuscleFibers) (firing_rates : List ℝ) :
    ℝ :=
  let normalized_firing_rates := normalize_firing_rates_w_fatigue st firing_rates
  let normalized_forces := calc_normalized_forces normalized_firing_rates
  let inst_forces := calc_inst_forces st normalized_forces
  calc_total_inst_force inst_forces

/-- step: returns the total fiber force; the method body only reads the
object, so the post-state is the pre-state (step_size is an unused
parameter). -/
def step (st : PotvinMuscleFibers) (motor_pool_output : List ℝ)
    (step_size : ℝ) : ℝ × PotvinMuscleFibers :=
  (calc_total_fiber_force st motor_pool_output, st)

/-- The validity assumptions on a configuration used by the spec. -/
def ValidConfig (c : Config) : Prop :=
  2 ≤ c.motor_unit_count ∧ 1 < c.max_twitch_amplitude ∧
    0 < c.max_contraction_time ∧ 1 < c.contraction_time_range ∧
    0 < c.fatigue_factor_first_unit ∧ 1 < c.fatigability_range

/-- The default configuration of the class, with motor_unit_count 2. -/
def c0 : Config :=
  ⟨2, 100, 90, 3, 50, 0.0125, 180, 0.379⟩

/-- The piecewise nonlinear force transform as the spec describes it,
for comparison with calc_normalized_forces. -/
def spec_normalized_force (x : ℝ) : ℝ :=
  if x ≤ 0.4 then 0.3 * x else 1 - Real.exp (-2 * x ^ 3)

/-- The total force computed by _calc_total_fiber_force, as a function of
the firing-rate list and the two parameter lists it reads from the
object. -/
def poolForce (firing_rates cts ptf : List ℝ) : ℝ :=
  (List.zipWith (· * ·)
    (calc_normalized_forces
      (List.zipWith (· * ·) (firing_rates.map fun r => r / 1000) cts))
    ptf).sum

/-- calc_normalized_forces acts as the piecewise map applied pointwise:
the two masks are disjoint and are computed before either in-place update,
so each entry is transformed independently of the others. -/
theorem calc_normalized_forces_eq_map (l : List ℝ) :
    calc_normalized_forces l = l.map spec_normalized_force := by
  induction l with
  | nil => rfl
  | cons x xs ih =>
    by_cases hx : x ≤ 0.4
    · have hx2 : ¬(0.4 : ℝ) < x := not_lt.mpr hx
      simpa [calc_normalized_forces, spec_normalized_force, hx, hx2] using ih
    · have hx2 : (0.4 : ℝ) < x := not_le.mp hx
      simpa [calc_normalized_forces, spec_normalized_force, hx, hx2] using ih

/-- Clamping at zero by the masked assignment is the same as max with 0. -/
theorem ite_neg_zero_eq_max (a : ℝ) : (if a < 0 then (0 : ℝ) else a) = max a 0 := by
  rcases lt_or_le a 0 with h | h
  · simp [h, max_eq_right h.le]
  · simp [not_lt.mpr h, max_eq_left h]

/-- Claim C3: the element-wise nonlinear force transform maps every
normalized firing rate x to 0.3 * x when x ≤ 0.4 and to
1 - exp(-2 * x^3) when x > 0.4, independently per unit. -/
theorem claim_C3 (normalized_firing_rates : List ℝ) :
    calc_normalized_forces normalized_firing_rates =
      normalized_firing_rates.map spec_normalized_force :=
  calc_normalized_forces_eq_map normalized_firing_rates

/-- Claim C1: for any firing-rate vector of the right length with
non-negative entries, the total force returned by step is the sum over
all units of the normalized force scaled by the current (fatigue-reduced)
twitch-force capacity: the constructor aliases the current twitch-force
array to the peak array, so the multiplication in _calc_inst_forces reads
exactly the current capacities. -/
theorem claim_C1 (c : Config) (firing_rates : List ℝ) (step_size : ℝ)
    (hlen : firing_rates.length = c.motor_unit_count)
    (hnn : ∀ x ∈ firing_rates, 0 ≤ x) :
    (step (init c) firing_rates step_size).1 =
      calc_total_inst_force
        (calc_current_forces (init c)
          (calc_normalized_forces
            (normalize_firing_rates_w_fatigue (init c) firing_rates))) := rfl

/-- Witness for claim C1 at the default configuration with two units. -/
theorem claim_C1_witness :
    ([(0 : ℝ), 0].length = c0.motor_unit_count ∧ ∀ x ∈ [(0 : ℝ), 0], 0 ≤ x) ∧
      (step (init c0) [0, 0] 0.1).1 =
        calc_total_inst_force
          (calc_current_forces (init c0)
            (calc_normalized_forces
              (normalize_firing_rates_w_fatigue (init c0) [0, 0]))) :=
  ⟨⟨rfl, by simp⟩, claim_C1 c0 [0, 0] 0.1 rfl (by simp)⟩

/-- Claim C2: step never mutates the object; in particular the fatigue
update is not on the step path, so the whole state is unchanged. -/
theorem claim_C2 (st : PotvinMuscleFibers) (firing_rates : List ℝ)
    (step_size : ℝ) (hs : 0 < step_size) :
    (step st firing_rates step_size).2 = st := rfl

/-- Witness for claim C2. -/
theorem claim_C2_witness :
    0 < (0.1 : ℝ) ∧ (step (init c0) [0, 0] 0.1).2 = init c0 :=
  ⟨by norm_num, claim_C2 (init c0) [0, 0] 0.1 (by norm_num)⟩

/-- Claim C10: the step_size argument of step has no influence on the
returned total force. -/
theorem claim_C10 (st : PotvinMuscleFibers) (firing_rates : List ℝ)
    (s1 s2 : ℝ) (h1 : 0 < s1) (h2 : 0 < s2) :
    (step st firing_rates s1).1 = (step st firing_rates s2).1 := rfl

/-- Witness for claim C10. -/
theorem claim_C10_witness :
    (0 < (0.1 : ℝ) ∧ 0 < (2 : ℝ)) ∧
      (step (init c0) [3, 7] 0.1).1 = (step (init c0) [3, 7] 2).1 :=
  ⟨⟨by norm_num, by norm_num⟩,
    claim_C10 (init c0) [3, 7] 0.1 2 (by norm_num) (by norm_num)⟩

/-- Reading the current twitch-force array after apply_fatigue yields the
clamped decrement of the old array (shared helper). -/
theorem arr_apply_fatigue (st : PotvinMuscleFibers) (inst_fatigues : List ℝ)
    (step_size : ℝ)
    (href : st.current_twitch_forces_ref < st.arrays.length) :
    arr (apply_fatigue st inst_fatigues step_size)
        st.current_twitch_forces_ref =
      List.zipWith (fun x f => max (x - step_size * f) 0)
        (arr st st.current_twitch_forces_ref) inst_fatigues := by
  have hlen : st.current_twitch_forces_ref <
      (st.arrays.set st.current_twitch_forces_ref
        ((List.zipWith (fun x f => x - f) (arr st st.current_twitch_forces_ref)
          (inst_fatigues.map fun f => step_size * f)).map
            fun x => if x < 0 then 0 else x)).length := by
    simpa using href
  simp only [apply_fatigue, arr] at hlen ⊢
  rw [List.getD_eq_getElem _ _ hlen, List.getElem_set_self,
    List.zipWith_map_right, List.map_zipWith]
  simp only [ite_neg_zero_eq_max]

/-- Every entry produced by the clamped decrement is non-negative. -/
theorem nonneg_of_mem_zipWith_max (s : ℝ) :
    ∀ (a b : List ℝ) (y : ℝ),
      y ∈ List.zipWith (fun x f => max (x - s * f) 0) a b → 0 ≤ y := by
  intro a
  induction a with
  | nil => intro b y hy; simp at hy
  | cons x xs ih =>
    intro b y hy
    cases b with
    | nil => simp at hy
    | cons f fs =>
      rw [List.zipWith_cons_cons, List.mem_cons] at hy
      rcases hy with rfl | hy
      · exact le_max_right _ _
      · exact ih fs y hy

/-- Claim C7: applying the fatigue update with instantaneous fatigues
F[i] = normalized_force[i] * nominal_fatigability[i] and step duration
h > 0 sets each current twitch force to max(previous - h * F[i], 0), and
the resulting current twitch forces are never negative. -/
theorem claim_C7 (st : PotvinMuscleFibers) (normalized_forces : List ℝ)
    (step_size : ℝ) (hs : 0 < step_size)
    (href : st.current_twitch_forces_ref < st.arrays.length) :
    arr (apply_fatigue st (calc_inst_fatigues st normalized_forces) step_size)
        ((apply_fatigue st (calc_inst_fatigues st normalized_forces)
          step_size).current_twitch_forces_ref) =
      List.zipWith (fun x f => max (x - step_size * f) 0)
        (arr st st.current_twitch_forces_ref)
        (calc_inst_fatigues st normalized_forces) ∧
    ∀ y ∈ arr (apply_fatigue st (calc_inst_fatigues st normalized_forces)
        step_size)
        ((apply_fatigue st (calc_inst_fatigues st normalized_forces)
          step_size).current_twitch_forces_ref), 0 ≤ y := by
  have hfield : (apply_fatigue st (calc_inst_fatigues st normalized_forces)
      step_size).current_twitch_forces_ref = st.current_twitch_forces_ref := rfl
  rw [hfield, arr_apply_fatigue st _ step_size href]
  exact ⟨rfl, fun y hy => nonneg_of_mem_zipWith_max step_size _ _ y hy⟩

/-- Witness for claim C7 at the default two-unit configuration. -/
theorem claim_C7_witness :
    (0 < (0.1 : ℝ) ∧
      (init c0).current_twitch_forces_ref < (init c0).arrays.length) ∧
    (arr (apply_fatigue (init c0) (calc_inst_fatigues (init c0) [0, 0]) 0.1)
        ((apply_fatigue (init c0) (calc_inst_fatigues (init c0) [0, 0])
          0.1).current_twitch_forces_ref) =
      List.zipWith (fun x f => max (x - 0.1 * f) 0)
        (arr (init c0) (init c0).current_twitch_forces_ref)
        (calc_inst_fatigues (init c0) [0, 0]) ∧
    ∀ y ∈ arr (apply_fatigue (init c0) (calc_inst_fatigues (init c0) [0, 0])
        0.1)
        ((apply_fatigue (init c0) (calc_inst_fatigues (init c0) [0, 0])
          0.1).current_twitch_forces_ref), 0 ≤ y) :=
  ⟨⟨by norm_num, by decide⟩,
    claim_C7 (init c0) [0, 0] 0.1 (by norm_num) (by decide)⟩

/-- The peak twitch forces of a two-unit pool with amplitude 100. -/
theorem calc_peak_twitch_forces_two :
    calc_peak_twitch_forces 2 100 = [1, 100] := by
  have h100 : Real.exp (Real.log 100) = 100 := Real.exp_log (by norm_num)
  simp [calc_peak_twitch_forces, List.range_succ]
  norm_num [h100]

/-- Claim C9: the constructor aliases the current twitch-force array to
the peak twitch-force array (and the current contraction-time array to
the nominal one); consequently the in-place fatigue update writes through
the shared reference, so the array read as _peak_twitch_forces still
coincides with the current one after fatigue, and is changed by a
non-zero fatigue: the peak array is not immutable under _apply_fatigue. -/
theorem claim_C9 :
    (∀ c : Config,
      (init c).current_twitch_forces_ref = (init c).peak_twitch_forces_ref ∧
      (init c).current_contraction_times_ref = (init c).contraction_times_ref) ∧
    (∀ (st : PotvinMuscleFibers) (inst_fatigues : List ℝ) (step_size : ℝ),
      st.current_twitch_forces_ref = st.peak_twitch_forces_ref →
      arr (apply_fatigue st inst_fatigues step_size)
          ((apply_fatigue st inst_fatigues step_size).peak_twitch_forces_ref) =
        arr (apply_fatigue st inst_fatigues step_size)
          ((apply_fatigue st inst_fatigues
            step_size).current_twitch_forces_ref)) ∧
    arr (apply_fatigue (init c0) [1, 1] 1)
        ((apply_fatigue (init c0) [1, 1] 1).peak_twitch_forces_ref) ≠
      arr (init c0) (init c0).peak_twitch_forces_ref := by
  refine ⟨fun c => ⟨rfl, rfl⟩, ?_, ?_⟩
  · intro st inst_fatigues step_size hEq
    rw [show (apply_fatigue st inst_fatigues
        step_size).peak_twitch_forces_ref = st.peak_twitch_forces_ref from rfl,
      show (apply_fatigue st inst_fatigues
        step_size).current_twitch_forces_ref =
          st.current_twitch_forces_ref from rfl, hEq]
  · have h3 : (apply_fatigue (init c0) [1, 1] 1).peak_twitch_forces_ref =
        (init c0).current_twitch_forces_ref := rfl
    have harr0 : arr (init c0) (init c0).current_twitch_forces_ref =
        calc_peak_twitch_forces 2 100 := rfl
    have harr1 : arr (init c0) (init c0).peak_twitch_forces_ref =
        calc_peak_twitch_forces 2 100 := rfl
    rw [h3, arr_apply_fatigue (init c0) [1, 1] 1 (by decide), harr0, harr1,
      calc_peak_twitch_forces_two]
    intro heq
    rw [List.zipWith_cons_cons, List.zipWith_cons_cons] at heq
    simp only [List.cons.injEq] at heq
    have : max (1 - 1 * 1 : ℝ) 0 = 1 := heq.1
    norm_num at this

/-- Witness for claim C9: the aliased reads after a concrete fatigue
application agree. -/
theorem claim_C9_witness :
    arr (apply_fatigue (init c0) [1, 1] 1)
        ((apply_fatigue (init c0) [1, 1] 1).peak_twitch_forces_ref) =
      arr (apply_fatigue (init c0) [1, 1] 1)
        ((apply_fatigue (init c0) [1, 1] 1).current_twitch_forces_ref) :=
  claim_C9.2.1 (init c0) [1, 1] 1 rfl

/-- Numeric bounds for exp(-0.128), the saturating branch value at the
threshold, from the degree-4 Taylor bound. -/
theorem exp_neg_0128_bounds :
    0.8798 < Real.exp (-0.128) ∧ Real.exp (-0.128) < 0.88 := by
  have hA : |(-0.128 : ℝ)| = 0.128 := by
    rw [abs_of_neg] <;> norm_num
  have hb := @Real.exp_bound (-0.128) (by rw [hA]; norm_num) 4 (by norm_num)
  rw [hA, Finset.sum_range_succ, Finset.sum_range_succ, Finset.sum_range_succ,
    Finset.sum_range_succ, Finset.sum_range_zero] at hb
  norm_num [Nat.factorial] at hb
  rw [abs_sub_le_iff] at hb
  obtain ⟨h1, h2⟩ := hb
  constructor <;> linarith

/-- Claim C5 counterexample: at exactly 0.4 the code takes the linear
branch (the boundary condition uses ≤), producing 0.3 * 0.4 = 0.12, and
the saturating branch expression 1 - exp(-2 * 0.4^3) is a different
value, so the two branches do not agree at the threshold. -/
theorem claim_C5_counterexample :
    calc_normalized_forces [0.4] = [0.3 * 0.4] ∧
      (0.3 * 0.4 : ℝ) ≠ 1 - Real.exp (-2 * 0.4 ^ 3) := by
  constructor
  · rw [calc_normalized_forces_eq_map]
    simp [spec_normalized_force]
  · have h := exp_neg_0128_bounds.2
    have he : (-2 : ℝ) * 0.4 ^ 3 = -0.128 := by norm_num
    rw [he]
    intro heq
    have : Real.exp (-0.128) = 0.88 := by linarith
    linarith

/-- Claim C5 amended: at the threshold 0.4 the linear branch applies,
yielding 0.12, while the saturating expression at 0.4 lies strictly
between 0.12 and 0.1202: the branches differ by less than 2e-4, so the
transform has a small upward jump at 0.4 rather than being continuous. -/
theorem claim_C5 :
    calc_normalized_forces [0.4] = [0.3 * 0.4] ∧
      0.3 * 0.4 < 1 - Real.exp (-2 * (0.4 : ℝ) ^ 3) ∧
      1 - Real.exp (-2 * (0.4 : ℝ) ^ 3) < 0.1202 := by
  have he : (-2 : ℝ) * 0.4 ^ 3 = -0.128 := by norm_num
  have h1 := exp_neg_0128_bounds.1
  have h2 := exp_neg_0128_bounds.2
  refine ⟨?_, ?_, ?_⟩
  · rw [calc_normalized_forces_eq_map]
    simp [spec_normalized_force]
  · rw [he]; linarith
  · rw [he]; linarith

/-- The piecewise transform is monotone: the linear region is increasing,
the saturating region is increasing, and the jump at the threshold goes
upward (1 - exp(-2 y^3) exceeds 0.12 for y above the threshold). -/
theorem spec_normalized_force_mono {x y : ℝ} (hxy : x ≤ y) :
    spec_normalized_force x ≤ spec_normalized_force y := by
  unfold spec_normalized_force
  by_cases hy : y ≤ 0.4
  · have hx : x ≤ 0.4 := hxy.trans hy
    rw [if_pos hx, if_pos hy]
    linarith
  · rw [if_neg hy]
    have hy2 : (0.4 : ℝ) < y := not_le.mp hy
    by_cases hx : x ≤ 0.4
    · rw [if_pos hx]
      have hcube : (0.4 : ℝ) ^ 3 < y ^ 3 :=
        pow_lt_pow_left₀ hy2 (by norm_num) (by norm_num)
      have hexp : Real.exp (-2 * y ^ 3) < Real.exp (-0.128) :=
        Real.exp_lt_exp.mpr (by nlinarith)
      have hb := exp_neg_0128_bounds.2
      linarith
    · rw [if_neg hx]
      have hx2 : (0.4 : ℝ) < x := not_le.mp hx
      have hcube : x ^ 3 ≤ y ^ 3 := pow_le_pow_left₀ (by linarith) hxy 3
      have hexp : Real.exp (-2 * y ^ 3) ≤ Real.exp (-2 * x ^ 3) :=
        Real.exp_le_exp.mpr (by nlinarith)
      linarith

/-- The piecewise transform is non-negative on non-negative inputs. -/
theorem spec_normalized_force_nonneg {x : ℝ} (hx : 0 ≤ x) :
    0 ≤ spec_normalized_force x := by
  unfold spec_normalized_force
  by_cases h : x ≤ 0.4
  · rw [if_pos h]; linarith
  · rw [if_neg h]
    have hx3 : (0 : ℝ) ≤ x ^ 3 := pow_nonneg hx 3
    have : Real.exp (-2 * x ^ 3) ≤ 1 := by
      rw [show (1 : ℝ) = Real.exp 0 from Real.exp_zero.symm]
      exact Real.exp_le_exp.mpr (by nlinarith)
    linarith

/-- The piecewise transform sends 0 to 0. -/
theorem spec_normalized_force_zero : spec_normalized_force 0 = 0 := by
  norm_num [spec_normalized_force]

/-- The first component of step as a function of the firing rates and the
two arrays it dereferences. -/
theorem step_fst (st : PotvinMuscleFibers) (firing_rates : List ℝ)
    (step_size : ℝ) :
    (step st firing_rates step_size).1 =
      poolForce firing_rates (arr st st.current_contraction_times_ref)
        (arr st st.peak_twitch_forces_ref) := rfl

/-- poolForce with the transform in pointwise-map form. -/
theorem poolForce_eq (firing_rates cts ptf : List ℝ) :
    poolForce firing_rates cts ptf =
      (List.zipWith (· * ·)
        ((List.zipWith (· * ·) (firing_rates.map fun r => r / 1000) cts).map
          spec_normalized_force) ptf).sum := by
  rw [poolForce, calc_normalized_forces_eq_map]

/-- Unfolding poolForce on cons cells. -/
theorem poolForce_cons (x c p : ℝ) (xs cs ps : List ℝ) :
    poolForce (x :: xs) (c :: cs) (p :: ps) =
      spec_normalized_force (x / 1000 * c) * p + poolForce xs cs ps := by
  rw [poolForce_eq, poolForce_eq]
  simp [List.zipWith_cons_cons]

/-- poolForce vanishes when the contraction-time list is empty. -/
theorem poolForce_nil_cts (firing_rates ptf : List ℝ) :
    poolForce firing_rates [] ptf = 0 := by
  rw [poolForce_eq]; simp

/-- poolForce vanishes when the twitch-force list is empty. -/
theorem poolForce_nil_ptf (firing_rates cts : List ℝ) :
    poolForce firing_rates cts [] = 0 := by
  rw [poolForce_eq]; simp

/-- poolForce vanishes when the firing-rate list is empty. -/
theorem poolForce_nil_fr (cts ptf : List ℝ) : poolForce [] cts ptf = 0 := by
  rw [poolForce_eq]; simp

/-- poolForce is non-negative when all three lists are non-negative. -/
theorem poolForce_nonneg :
    ∀ (firing_rates cts ptf : List ℝ),
      (∀ x ∈ firing_rates, 0 ≤ x) → (∀ x ∈ cts, 0 ≤ x) →
      (∀ x ∈ ptf, 0 ≤ x) → 0 ≤ poolForce firing_rates cts ptf := by
  intro fr
  induction fr with
  | nil => intro cts ptf _ _ _; rw [poolForce_nil_fr]
  | cons x xs ih =>
    intro cts ptf hfr hcts hptf
    cases cts with
    | nil => rw [poolForce_nil_cts]
    | cons c cs =>
      cases ptf with
      | nil => rw [poolForce_nil_ptf]
      | cons p ps =>
        rw [poolForce_cons]
        have h1 : 0 ≤ spec_normalized_force (x / 1000 * c) * p :=
          mul_nonneg
            (spec_normalized_force_nonneg
              (mul_nonneg (div_nonneg (hfr x (by simp)) (by norm_num))
                (hcts c (by simp))))
            (hptf p (by simp))
        have h2 : 0 ≤ poolForce xs cs ps :=
          ih cs ps (fun a ha => hfr a (by simp [ha]))
            (fun a ha => hcts a (by simp [ha])) fun a ha => hptf a (by simp [ha])
        linarith

/-- poolForce is zero on all-zero firing rates. -/
theorem poolForce_zero :
    ∀ (firing_rates cts ptf : List ℝ),
      (∀ x ∈ firing_rates, x = 0) → poolForce firing_rates cts ptf = 0 := by
  intro fr
  induction fr with
  | nil => intro cts ptf _; rw [poolForce_nil_fr]
  | cons x xs ih =>
    intro cts ptf hfr
    cases cts with
    | nil => rw [poolForce_nil_cts]
    | cons c cs =>
      cases ptf with
      | nil => rw [poolForce_nil_ptf]
      | cons p ps =>
        rw [poolForce_cons]
        have hx : x = 0 := hfr x (by simp)
        rw [hx, ih cs ps fun a ha => hfr a (by simp [ha])]
        norm_num [spec_normalized_force_zero]

/-- Raising one firing rate, all others fixed, never lowers poolForce
when the contraction-time and twitch-force lists are non-negative. -/
theorem poolForce_set_le :
    ∀ (firing_rates : List ℝ) (i : ℕ) (v : ℝ) (cts ptf : List ℝ),
      (∀ x ∈ cts, 0 ≤ x) → (∀ x ∈ ptf, 0 ≤ x) →
      (∀ hi : i < firing_rates.length, firing_rates.get ⟨i, hi⟩ ≤ v) →
      poolForce firing_rates cts ptf ≤
        poolForce (firing_rates.set i v) cts ptf := by
  intro fr
  induction fr with
  | nil => intro i v cts ptf _ _ _; rw [List.set_nil]
  | cons x xs ih =>
    intro i v cts ptf hcts hptf hle
    cases cts with
    | nil => rw [poolForce_nil_cts, poolForce_nil_cts]
    | cons c cs =>
      cases ptf with
      | nil => rw [poolForce_nil_ptf, poolForce_nil_ptf]
      | cons p ps =>
        cases i with
        | zero =>
          rw [List.set_cons_zero, poolForce_cons, poolForce_cons]
          have hx : x ≤ v := hle (by simp)
          have harg : x / 1000 * c ≤ v / 1000 * c :=
            mul_le_mul_of_nonneg_right
              ((div_le_div_iff_of_pos_right (by norm_num)).mpr hx)
              (hcts c (by simp))
          have hmul : spec_normalized_force (x / 1000 * c) * p ≤
              spec_normalized_force (v / 1000 * c) * p :=
            mul_le_mul_of_nonneg_right (spec_normalized_force_mono harg)
              (hptf p (by simp))
          linarith
        | succ j =>
          rw [List.set_cons_succ, poolForce_cons, poolForce_cons]
          have htail : poolForce xs cs ps ≤ poolForce (xs.set j v) cs ps :=
            ih j v cs ps (fun a ha => hcts a (by simp [ha]))
              (fun a ha => hptf a (by simp [ha]))
              fun hj => hle (Nat.succ_lt_succ hj)
          linarith

/-- Every peak twitch force is positive (it is an exponential). -/
theorem calc_peak_twitch_forces_pos (n : ℕ) (A : ℝ) :
    ∀ x ∈ calc_peak_twitch_forces n A, 0 < x := by
  intro x hx
  simp only [calc_peak_twitch_forces, List.mem_map, List.mem_range] at hx
  obtain ⟨j, _, rfl⟩ := hx
  exact Real.exp_pos _

/-- Contraction times are non-negative when the maximal contraction time
and the peak forces are. -/
theorem calc_contraction_times_nonneg (A T r : ℝ) (hT : 0 ≤ T)
    (ptf : List ℝ) (hp : ∀ p ∈ ptf, 0 ≤ p) :
    ∀ x ∈ calc_contraction_times A T r ptf, 0 ≤ x := by
  intro x hx
  simp only [calc_contraction_times, List.mem_map] at hx
  obtain ⟨p, hpm, rfl⟩ := hx
  exact mul_nonneg hT
    (Real.rpow_nonneg (one_div_nonneg.mpr (hp p hpm)) _)

/-- Claim C4: for a valid configuration and a non-negative firing-rate
vector of the right length, replacing one entry by a larger value never
decreases the total force returned by step. -/
theorem claim_C4 (c : Config) (firing_rates : List ℝ) (step_size : ℝ)
    (i : ℕ) (v : ℝ) (hc : ValidConfig c)
    (hlen : firing_rates.length = c.motor_unit_count)
    (hnn : ∀ x ∈ firing_rates, 0 ≤ x)
    (hi : i < firing_rates.length)
    (hv : firing_rates.get ⟨i, hi⟩ ≤ v) :
    (step (init c) firing_rates step_size).1 ≤
      (step (init c) (firing_rates.set i v) step_size).1 := by
  rw [step_fst, step_fst]
  refine poolForce_set_le firing_rates i v _ _ ?_ ?_ ?_
  · exact calc_contraction_times_nonneg _ _ _ hc.2.2.1.le _
      fun p hp => (calc_peak_twitch_forces_pos _ _ p hp).le
  · exact fun p hp => (calc_peak_twitch_forces_pos _ _ p hp).le
  · intro hi2
    exact hv

/-- Witness for claim C4 at the default two-unit configuration, raising
the first firing rate from 0 to 1. -/
theorem claim_C4_witness :
    ValidConfig c0 ∧
      (step (init c0) [0, 0] 0.1).1 ≤ (step (init c0) ([0, 0].set 0 1) 0.1).1 :=
  ⟨by norm_num [ValidConfig, c0],
    claim_C4 c0 [0, 0] 0.1 0 1 (by norm_num [ValidConfig, c0]) rfl (by simp)
      (by norm_num) zero_le_one⟩

/-- Claim C8: for a valid configuration, the total force is non-negative
on non-negative firing rates, and exactly 0 on all-zero firing rates. -/
theorem claim_C8 (c : Config) (firing_rates : List ℝ) (step_size : ℝ)
    (hc : ValidConfig c)
    (hlen : firing_rates.length = c.motor_unit_count)
    (hnn : ∀ x ∈ firing_rates, 0 ≤ x) :
    0 ≤ (step (init c) firing_rates step_size).1 ∧
      ((∀ x ∈ firing_rates, x = 0) →
        (step (init c) firing_rates step_size).1 = 0) := by
  simp only [step_fst]
  constructor
  · refine poolForce_nonneg firing_rates _ _ hnn ?_ ?_
    · exact calc_contraction_times_nonneg _ _ _ hc.2.2.1.le _
        fun p hp => (calc_peak_twitch_forces_pos _ _ p hp).le
    · exact fun p hp => (calc_peak_twitch_forces_pos _ _ p hp).le
  · intro hz
    exact poolForce_zero firing_rates _ _ hz

/-- Witness for claim C8 at the default two-unit configuration. -/
theorem claim_C8_witness :
    ValidConfig c0 ∧
      (0 ≤ (step (init c0) [0, 0] 0.1).1 ∧
        ((∀ x ∈ [(0 : ℝ), 0], x = 0) → (step (init c0) [0, 0] 0.1).1 = 0)) :=
  ⟨by norm_num [ValidConfig, c0],
    claim_C8 c0 [0, 0] 0.1 (by norm_num [ValidConfig, c0]) rfl (by simp)⟩

/-- Peak twitch forces are strictly increasing across unit index for
valid parameters. -/
theorem calc_peak_twitch_forces_strict_mono (n : ℕ) (A : ℝ) (hn : 2 ≤ n)
    (hA : 1 < A) : List.Pairwise (· < ·) (calc_peak_twitch_forces n A) := by
  have hlog : 0 < Real.log A := Real.log_pos hA
  have hden : (0 : ℝ) < (n : ℝ) - 1 := by
    have h2 : (2 : ℝ) ≤ (n : ℝ) := by exact_mod_cast hn
    linarith
  unfold calc_peak_twitch_forces
  rw [List.pairwise_map]
  refine (List.pairwise_lt_range n).imp ?_
  intro a b hab
  have hab2 : (a : ℝ) < (b : ℝ) := by exact_mod_cast hab
  exact Real.exp_lt_exp.mpr
    (div_lt_div_of_pos_right (mul_lt_mul_of_pos_left hab2 hlog) hden)

/-- Contraction times are strictly decreasing across unit index for valid
parameters. -/
theorem calc_contraction_times_strict_anti (n : ℕ) (A T r : ℝ) (hn : 2 ≤ n)
    (hA : 1 < A) (hT : 0 < T) (hr : 1 < r) :
    List.Pairwise (fun a b => b < a)
      (calc_contraction_times A T r (calc_peak_twitch_forces n A)) := by
  have hlogA : 0 < Real.log A := Real.log_pos hA
  have hlogr : 0 < Real.log r := Real.log_pos hr
  have hden : (0 : ℝ) < (n : ℝ) - 1 := by
    have h2 : (2 : ℝ) ≤ (n : ℝ) := by exact_mod_cast hn
    linarith
  have hex : 0 < 1 / (Real.log A / Real.log r) :=
    div_pos one_pos (div_pos hlogA hlogr)
  simp only [calc_contraction_times, calc_peak_twitch_forces, List.map_map]
  rw [List.pairwise_map]
  refine (List.pairwise_lt_range n).imp ?_
  intro a b hab
  have hab2 : (a : ℝ) < (b : ℝ) := by exact_mod_cast hab
  have hea : Real.log A * (a : ℝ) / ((n : ℝ) - 1) <
      Real.log A * (b : ℝ) / ((n : ℝ) - 1) :=
    div_lt_div_of_pos_right (mul_lt_mul_of_pos_left hab2 hlogA) hden
  have hbase : (1 : ℝ) / Real.exp (Real.log A * (b : ℝ) / ((n : ℝ) - 1)) <
      1 / Real.exp (Real.log A * (a : ℝ) / ((n : ℝ) - 1)) := by
    rw [one_div, one_div, ← Real.exp_neg, ← Real.exp_neg]
    exact Real.exp_lt_exp.mpr (by linarith)
  have h0 : (0 : ℝ) ≤
      1 / Real.exp (Real.log A * (b : ℝ) / ((n : ℝ) - 1)) :=
    one_div_nonneg.mpr (Real.exp_pos _).le
  simp only [Function.comp]
  exact mul_lt_mul_of_pos_left (Real.rpow_lt_rpow h0 hbase hex) hT

/-- Nominal fatigabilities are strictly increasing across unit index for
valid parameters. -/
theorem calc_nominal_fatigabilities_strict_mono (n : ℕ) (R F : ℝ)
    (hn : 2 ≤ n) (hR : 1 < R) (hF : 0 < F) :
    List.Pairwise (· < ·) (calc_nominal_fatigabilities n R F) := by
  have hlog : 0 < Real.log R := Real.log_pos hR
  have hden : (0 : ℝ) < (n : ℝ) - 1 := by
    have h2 : (2 : ℝ) ≤ (n : ℝ) := by exact_mod_cast hn
    linarith
  unfold calc_nominal_fatigabilities
  rw [List.pairwise_map]
  refine (List.pairwise_lt_range n).imp ?_
  intro a b hab
  have hab2 : (a : ℝ) < (b : ℝ) := by exact_mod_cast hab
  exact mul_lt_mul_of_pos_left
    (Real.exp_lt_exp.mpr
      (div_lt_div_of_pos_right (mul_lt_mul_of_pos_left hab2 hlog) hden)) hF

/-- Claim C6: for every valid configuration the derived arrays are
strictly increasing (peak twitch force), strictly decreasing (contraction
time), and strictly increasing (nominal fatigability) in unit index. -/
theorem claim_C6 (c : Config) (hc : ValidConfig c) :
    List.Pairwise (· < ·) (arr (init c) (init c).peak_twitch_forces_ref) ∧
      List.Pairwise (fun a b => b < a)
        (arr (init c) (init c).contraction_times_ref) ∧
      List.Pairwise (· < ·)
        (arr (init c) (init c).nominal_fatigabilities_ref) := by
  obtain ⟨hn, hA, hT, hr, hF, hR⟩ := hc
  exact ⟨calc_peak_twitch_forces_strict_mono _ _ hn hA,
    calc_contraction_times_strict_anti _ _ _ _ hn hA hT hr,
    calc_nominal_fatigabilities_strict_mono _ _ _ hn hR hF⟩

/-- Witness for claim C6 at the default two-unit configuration. -/
theorem claim_C6_witness :
    ValidConfig c0 ∧
      (List.Pairwise (· < ·)
          (arr (init c0) (init c0).peak_twitch_forces_ref) ∧
        List.Pairwise (fun a b => b < a)
          (arr (init c0) (init c0).contraction_times_ref) ∧
        List.Pairwise (· < ·)
          (arr (init c0) (init c0).nominal_fatigabilities_ref)) :=
  ⟨by norm_num [ValidConfig, c0], claim_C6 c0 (by norm_num [ValidConfig, c0])⟩

end Pymuscle
